import Mathlib

/-!
Verification development for a browser new-tab extension ("TabManager") that
mirrors a two-level bookmark hierarchy (groups / collections / tab items) into
an in-memory view-model. The definitions below are shallow embeddings of the
TypeScript source (`src/entrypoints/newtab/App.vue`,
`src/entrypoints/newtab/storage.ts`, `src/entrypoints/newtab/types.ts`):
pure view-model mutations become Lean functions, adapter (bookmark / storage)
calls become an explicit list of issued `Effect`s, and the success or failure
of an awaited adapter call is an explicit `Bool` parameter (`ok`).
-/

namespace TabManager

/-- JavaScript `String.prototype.trim`: drop whitespace from both ends.
Embedded directly over the character list so that it evaluates. -/
def jsTrim (s : String) : String :=
  String.mk (((s.data.dropWhile Char.isWhitespace).reverse.dropWhile
    Char.isWhitespace).reverse)

/-- JavaScript `String.prototype.startsWith`, embedded over the character
list so that it evaluates. -/
def jsStartsWith (s p : String) : Bool :=
  p.data.isPrefixOf s.data

/-- JS truthiness of an optional url string (`tab.url && ...`):
`undefined` and the empty string are falsy. -/
def urlTruthy (url : Option String) : Bool :=
  match url with
  | none => false
  | some u => u ≠ ""

/-! ## Data model (`types.ts`) -/

/-- `TabItem` from `types.ts`: a bookmark mirroring a saved browser tab. -/
structure TabItem where
  id : String
  title : String
  url : String
  favicon : String
deriving DecidableEq

/-- `Collection` from `types.ts`, as augmented by `App.vue` at load time with
the UI-state `expanded` flag (`{ ...c, expanded: ... }`). -/
structure Collection where
  id : String
  name : String
  tabs : List TabItem
  createdAt : Nat
  groupId : String
  expanded : Bool
deriving DecidableEq

/-- `Group` from `types.ts`. -/
structure Group where
  id : String
  name : String
  createdAt : Nat
deriving DecidableEq

/-- `BrowserTab` from `App.vue`: an open browser tab as returned by
`browser.tabs.query` (all fields optional). -/
structure BrowserTab where
  id : Option Nat
  url : Option String
  title : Option String
  favIconUrl : Option String
deriving DecidableEq

/-- The `draggedTab` marker payload (`{ collectionId, tabId }`). -/
structure DraggedTab where
  collectionId : String
  tabId : String
deriving DecidableEq

/-- One issued external call: a bookmark-adapter operation from `storage.ts`
or a `browser.storage.local` write. Handlers return the list of calls they
issue, in order; a call is recorded even when it subsequently throws. -/
inductive Effect where
  | addTabCall (parentCollectionId title url favicon : String)
  | removeTabCall (tabId : String)
  | moveTabCall (tabId targetCollectionId : String)
  | moveGroupToIndexCall (groupId : String) (index : Nat)
  | updateTitleCall (id title : String)
  | storageWrite (key : String)
deriving DecidableEq

/-! ## Url validity (`App.vue` `isValidTabUrl`, lines 404-408) -/

/-- The `excludeUrls` list of `isValidTabUrl`. -/
def excludeUrls : List String :=
  ["chrome://", "chrome-extension://", "about:", "edge://", "brave://", "javascript:"]

/-- `isValidTabUrl(url)`: `false` for a missing or empty url, and for a url
starting with one of the system prefixes of `excludeUrls`. -/
def isValidTabUrl (url : Option String) : Bool :=
  match url with
  | none => false
  | some u =>
    if u = "" then false
    else ! excludeUrls.any (fun p => jsStartsWith u p)

/-! ## List-of-collections update helpers

The Vue code mutates the first collection object returned by
`collections.value.find(...)` in place; these helpers mirror that by
rewriting the first list entry whose id matches. -/

/-- Replace the first collection with the given id by `f` of it. -/
def updateFirstCollection (cols : List Collection) (cid : String)
    (f : Collection → Collection) : List Collection :=
  match cols with
  | [] => []
  | c :: rest =>
    if c.id = cid then f c :: rest
    else c :: updateFirstCollection rest cid f

/-- `targetCollection.tabs.push(t)` on the first collection with id `cid`. -/
def pushTabToCollection (cols : List Collection) (cid : String) (t : TabItem) :
    List Collection :=
  updateFirstCollection cols cid (fun c => { c with tabs := c.tabs ++ [t] })

/-- The `TabItem` returned by `addTabToCollection` in `storage.ts`
(lines 164-177): the adapter echoes the request and fills the favicon from
`getFaviconUrl` when the provided favicon is falsy. The browser-side pieces
(`bookmark.id` and URL-hostname favicon derivation) are parameters. -/
def addTabResult (gfv : String → String) (newId title url favicon : String) :
    TabItem :=
  { id := newId, title := title, url := url,
    favicon := if favicon ≠ "" then favicon else gfv url }

/-- `tab.title || fallback` (JS falsy: `undefined` or `""`). -/
def titleOr (title : Option String) (fallback : String) : String :=
  match title with
  | none => fallback
  | some t => if t ≠ "" then t else fallback

/-! ## Drag markers and drag-start handlers (`App.vue` lines 117-131,
298-303, 484-493, 604-611) -/

/-- The four nullable "dragged X" refs of `App.vue`. -/
structure DragMarkers where
  draggedTab : Option DraggedTab
  draggedOpenTab : Option BrowserTab
  draggedCollection : Option String
  draggedGroup : Option String
deriving DecidableEq

/-- `onDragStart` (saved tab, lines 484-487): sets `draggedTab`, clears
`draggedOpenTab`. -/
def onDragStart (m : DragMarkers) (collectionId tabId : String) : DragMarkers :=
  { m with draggedTab := some ⟨collectionId, tabId⟩, draggedOpenTab := none }

/-- `onDragStartOpenTab` (lines 490-493): sets `draggedOpenTab`, clears
`draggedTab`. -/
def onDragStartOpenTab (m : DragMarkers) (tab : BrowserTab) : DragMarkers :=
  { m with draggedOpenTab := some tab, draggedTab := none }

/-- `onCollectionDragStart` (lines 604-611): sets `draggedCollection`,
clears `draggedTab` and `draggedOpenTab`. -/
def onCollectionDragStart (m : DragMarkers) (collectionId : String) : DragMarkers :=
  { m with draggedCollection := some collectionId,
           draggedTab := none, draggedOpenTab := none }

/-- `onGroupDragStart` (lines 298-303): sets `draggedGroup` only; no other
marker is touched (the `event.dataTransfer` effect is presentation-only). -/
def onGroupDragStart (m : DragMarkers) (groupId : String) : DragMarkers :=
  { m with draggedGroup := some groupId }

/-- Number of non-null drag markers. -/
def markerCount (m : DragMarkers) : Nat :=
  (if m.draggedTab.isSome then 1 else 0) +
  (if m.draggedOpenTab.isSome then 1 else 0) +
  (if m.draggedCollection.isSome then 1 else 0) +
  (if m.draggedGroup.isSome then 1 else 0)

/-! ## Rename commits (`App.vue` `saveGroupName` 285-295,
`saveCollectionName` 391-401, `saveTabName` 467-481)

Each returns the new entity state, the editing-id ref after the commit
(always reset to `null`/`none`), and the issued adapter calls. `ok` is
whether the awaited `bookmarks.update` resolves; on a throw the local name
assignment is skipped by the `catch`. -/

/-- `saveGroupName(group)`. -/
def saveGroupName (g : Group) (editingName : String) (ok : Bool) :
    Group × Option String × List Effect :=
  if jsTrim editingName ≠ "" then
    if ok then
      ({ g with name := jsTrim editingName }, none,
        [Effect.updateTitleCall g.id (jsTrim editingName)])
    else (g, none, [Effect.updateTitleCall g.id (jsTrim editingName)])
  else (g, none, [])

/-- `saveCollectionName(collection)`. -/
def saveCollectionName (c : Collection) (editingName : String) (ok : Bool) :
    Collection × Option String × List Effect :=
  if jsTrim editingName ≠ "" then
    if ok then
      ({ c with name := jsTrim editingName }, none,
        [Effect.updateTitleCall c.id (jsTrim editingName)])
    else (c, none, [Effect.updateTitleCall c.id (jsTrim editingName)])
  else (c, none, [])

/-- `saveTabName(collectionId, tabId)`: find the collection, find the tab;
update the bookmark title and mirror it locally only when the trimmed edit
is non-empty; always exit edit mode. -/
def saveTabName (cols : List Collection) (collectionId tabId : String)
    (editingName : String) (ok : Bool) :
    List Collection × Option String × List Effect :=
  match cols.find? (fun c => c.id = collectionId) with
  | none => (cols, none, [])
  | some collection =>
    match collection.tabs.find? (fun t => t.id = tabId) with
    | none => (cols, none, [])
    | some _tab =>
      if jsTrim editingName ≠ "" then
        if ok then
          (updateFirstCollection cols collectionId (fun c =>
            { c with tabs := c.tabs.map (fun t =>
                if t.id = tabId then { t with title := jsTrim editingName } else t) }),
            none, [Effect.updateTitleCall tabId (jsTrim editingName)])
        else (cols, none, [Effect.updateTitleCall tabId (jsTrim editingName)])
      else (cols, none, [])

/-! ## Group create / delete (`App.vue` `createGroup` 246-259,
`deleteGroup` 262-276) -/

/-- The view-model state touched by group create/delete. -/
structure AppState where
  groups : List Group
  collections : List Collection
  selectedGroupId : String
deriving DecidableEq

/-- `createGroup()`: guarded by a non-empty trimmed name; on adapter success
push the created group and select it, on a throw the `catch` leaves state
unchanged. `newGroup` is the group the bookmark adapter returns. -/
def createGroupStep (s : AppState) (name : String) (newGroup : Group)
    (ok : Bool) : AppState :=
  if jsTrim name ≠ "" then
    if ok then
      { s with groups := s.groups ++ [newGroup],
               selectedGroupId := newGroup.id }
    else s
  else s

/-- `deleteGroup(id)`: only when the user confirms and `removeTree`
resolves, drop all collections of the group and the group itself, and
re-point the selection if it referenced the deleted group. -/
def deleteGroupStep (s : AppState) (id : String) (confirmed ok : Bool) :
    AppState :=
  if confirmed && ok then
    let newCollections := s.collections.filter (fun c => c.groupId ≠ id)
    let newGroups := s.groups.filter (fun g => g.id ≠ id)
    { groups := newGroups, collections := newCollections,
      selectedGroupId :=
        if s.selectedGroupId = id then
          match newGroups.head? with
          | some g => g.id
          | none => ""
        else s.selectedGroupId }
  else s

/-- One user-level group operation, with its adapter/confirm outcomes. -/
inductive GroupOp where
  | create (name : String) (newGroup : Group) (ok : Bool)
  | delete (id : String) (confirmed ok : Bool)

/-- Run a sequence of group create/delete operations. -/
def runGroupOps (s : AppState) : List GroupOp → AppState
  | [] => s
  | GroupOp.create name g ok :: rest =>
    runGroupOps (createGroupStep s name g ok) rest
  | GroupOp.delete id c ok :: rest =>
    runGroupOps (deleteGroupStep s id c ok) rest

/-- Every collection's `groupId` references a group in the groups list. -/
def groupRefInvariant (s : AppState) : Prop :=
  ∀ c ∈ s.collections, ∃ g ∈ s.groups, g.id = c.groupId

/-! ## Group drag reorder (`App.vue` `onGroupDrop` 313-340;
`storage.ts` `moveGroupToIndex` 216-219) -/

/-- `onGroupDrop(targetGroupId)`: with a dragged group distinct from the
target and both present, splice the dragged group out and re-insert it at
the target's (pre-splice) index, then issue the adapter's index move inside
`try`/`catch` — the local reorder stands whether or not the call resolves
(`ok` is unused). Returns the new list, the reset `draggedGroup` marker, and
the issued calls. -/
def onGroupDrop (groups : List Group) (draggedGroup : Option String)
    (targetGroupId : String) (_ok : Bool) :
    List Group × Option String × List Effect :=
  match draggedGroup with
  | none => (groups, none, [])
  | some dg =>
    if dg = targetGroupId then (groups, none, [])
    else
      match groups.findIdx? (fun g => g.id = dg),
            groups.findIdx? (fun g => g.id = targetGroupId) with
      | some sourceIndex, some targetIndex =>
        match groups.get? sourceIndex with
        | some movedGroup =>
          ((groups.eraseIdx sourceIndex).insertIdx targetIndex movedGroup,
            none, [Effect.moveGroupToIndexCall dg targetIndex])
        | none => (groups, none, [])
      | _, _ => (groups, none, [])

/-! ## Tab drop handlers (`App.vue` `onTabDrop` 523-601,
`onDropToCollection` 665-726, `deleteTab` 448-458,
`saveCurrentTabs` 411-433)

`gfv` abstracts the adapter's URL-hostname favicon derivation
(`getFaviconUrl` in `storage.ts`), `newId` the bookmark id the browser
assigns on create, and `ok` whether the single awaited adapter call of the
run resolves. -/

/-- The refs read and written by the tab drop handlers. -/
structure DropState where
  collections : List Collection
  draggedTab : Option DraggedTab
  draggedOpenTab : Option BrowserTab
  dragOverCollectionId : Option String
  dragOverTabId : Option String
deriving DecidableEq

/-- `onDropToCollection(targetCollectionId)`. An open-tab drop appends a new
TabItem unless the url is invalid or already present; a saved-tab drop from
another collection moves the bookmark then splices it across, rejected when
the target already holds the url. -/
def onDropToCollection (gfv : String → String) (newId : String) (ok : Bool)
    (s : DropState) (targetCollectionId : String) : DropState × List Effect :=
  match s.collections.find? (fun c => c.id = targetCollectionId) with
  | none => (s, [])
  | some targetCollection =>
    match s.draggedOpenTab with
    | some tab =>
      let s1 := { s with draggedOpenTab := none, dragOverCollectionId := none }
      if urlTruthy tab.url && isValidTabUrl tab.url then
        let u := tab.url.getD ""
        if targetCollection.tabs.any (fun t => t.url = u) then (s1, [])
        else
          let title := titleOr tab.title u
          let fav := tab.favIconUrl.getD ""
          let call := Effect.addTabCall targetCollectionId title u fav
          if ok then
            let newTab := addTabResult gfv newId title u fav
            ({ s1 with collections :=
                pushTabToCollection s.collections targetCollectionId newTab },
              [call])
          else (s1, [call])
      else (s1, [])
    | none =>
      match s.draggedTab with
      | some dt =>
        if dt.collectionId = targetCollectionId then
          ({ s with draggedTab := none, dragOverCollectionId := none }, [])
        else
          let sFin := { s with draggedTab := none, draggedOpenTab := none,
                               dragOverCollectionId := none }
          match s.collections.find? (fun c => c.id = dt.collectionId) with
          | none => (sFin, [])
          | some sourceCollection =>
            match sourceCollection.tabs.findIdx? (fun t => t.id = dt.tabId) with
            | none => (sFin, [])
            | some tabIndex =>
              match sourceCollection.tabs.get? tabIndex with
              | none => (sFin, [])
              | some sourceTab =>
                if targetCollection.tabs.any (fun t => t.url = sourceTab.url) then
                  (sFin, [])
                else
                  let call := Effect.moveTabCall dt.tabId targetCollectionId
                  if ok then
                    let colsAfterRemove :=
                      updateFirstCollection s.collections dt.collectionId
                        (fun c => { c with tabs := c.tabs.eraseIdx tabIndex })
                    let colsAfterAdd :=
                      pushTabToCollection colsAfterRemove targetCollectionId
                        sourceTab
                    ({ sFin with collections := colsAfterAdd }, [call])
                  else (sFin, [call])
      | none =>
        ({ s with draggedTab := none, draggedOpenTab := none,
                  dragOverCollectionId := none }, [])

/-- `onTabDrop(collectionId, targetTabId)`. An open-tab drop inserts the
created TabItem at the hovered tab's index (or appends); a same-collection
saved-tab drop reorders the local array only; a cross-collection saved-tab
drop moves the bookmark then splices, rejected on a duplicate url. -/
def onTabDrop (gfv : String → String) (newId : String) (ok : Bool)
    (s : DropState) (collectionId targetTabId : String) :
    DropState × List Effect :=
  match s.collections.find? (fun c => c.id = collectionId) with
  | none => (s, [])
  | some collection =>
    match s.draggedOpenTab with
    | some tab =>
      let s1 := { s with draggedOpenTab := none, dragOverTabId := none }
      if urlTruthy tab.url && isValidTabUrl tab.url then
        let u := tab.url.getD ""
        if collection.tabs.any (fun t => t.url = u) then (s1, [])
        else
          let title := titleOr tab.title u
          let fav := tab.favIconUrl.getD ""
          let call := Effect.addTabCall collectionId title u fav
          if ok then
            let newTab := addTabResult gfv newId title u fav
            let newCols :=
              match collection.tabs.findIdx? (fun t => t.id = targetTabId) with
              | some targetIndex =>
                updateFirstCollection s.collections collectionId
                  (fun c => { c with tabs := c.tabs.insertIdx targetIndex newTab })
              | none => pushTabToCollection s.collections collectionId newTab
            ({ s1 with collections := newCols }, [call])
          else (s1, [call])
      else (s1, [])
    | none =>
      match s.draggedTab with
      | none => ({ s with draggedTab := none, dragOverTabId := none }, [])
      | some dt =>
        let sFin := { s with draggedTab := none, dragOverTabId := none }
        if dt.collectionId = collectionId then
          match collection.tabs.findIdx? (fun t => t.id = dt.tabId),
                collection.tabs.findIdx? (fun t => t.id = targetTabId) with
          | some sourceIndex, some targetIndex =>
            if sourceIndex ≠ targetIndex then
              match collection.tabs.get? sourceIndex with
              | some movedTab =>
                let newCols :=
                  updateFirstCollection s.collections collectionId
                    (fun c =>
                      let reordered :=
                        (c.tabs.eraseIdx sourceIndex).insertIdx targetIndex movedTab
                      { c with tabs := reordered })
                ({ sFin with collections := newCols }, [])
              | none => (sFin, [])
            else (sFin, [])
          | _, _ => (sFin, [])
        else
          match s.collections.find? (fun c => c.id = dt.collectionId) with
          | none => (sFin, [])
          | some sourceCollection =>
            match sourceCollection.tabs.findIdx? (fun t => t.id = dt.tabId) with
            | none => (sFin, [])
            | some sourceIndex =>
              match sourceCollection.tabs.get? sourceIndex with
              | none => (sFin, [])
              | some sourceTab =>
                if collection.tabs.any (fun t => t.url = sourceTab.url) then
                  (sFin, [])
                else
                  let call := Effect.moveTabCall dt.tabId collectionId
                  if ok then
                    let colsAfterRemove :=
                      updateFirstCollection s.collections dt.collectionId
                        (fun c => { c with tabs := c.tabs.eraseIdx sourceIndex })
                    let newCols :=
                      match collection.tabs.findIdx? (fun t => t.id = targetTabId) with
                      | some targetIndex =>
                        updateFirstCollection colsAfterRemove collectionId
                          (fun c =>
                            { c with tabs := c.tabs.insertIdx targetIndex sourceTab })
                      | none =>
                        pushTabToCollection colsAfterRemove collectionId sourceTab
                    ({ sFin with collections := newCols }, [call])
                  else (sFin, [call])

/-- `deleteTab(collectionId, tabId)`: remove the bookmark, then (only once
the await resolved) filter the tab out of the local array. -/
def deleteTab (ok : Bool) (cols : List Collection)
    (collectionId tabId : String) : List Collection × List Effect :=
  match cols.find? (fun c => c.id = collectionId) with
  | none => (cols, [])
  | some _collection =>
    if ok then
      (updateFirstCollection cols collectionId
        (fun c => { c with tabs := c.tabs.filter (fun t => t.id ≠ tabId) }),
        [Effect.removeTabCall tabId])
    else (cols, [Effect.removeTabCall tabId])

/-- The loop body of `saveCurrentTabs`: the set of existing urls is computed
once up front; each valid, not-yet-present window tab gets its own
`addTabToCollection` attempt (`okf n` for the n-th attempt, id `idf n`),
pushed locally only on success. Returns the locally pushed tabs and the
issued calls. -/
def saveCurrentTabsLoop (gfv : String → String) (okf : Nat → Bool)
    (idf : Nat → String) (cid : String) (existingUrls : List String) :
    List BrowserTab → Nat → List TabItem × List Effect
  | [], _ => ([], [])
  | tab :: rest, n =>
    if isValidTabUrl tab.url && ! existingUrls.contains (tab.url.getD "") then
      let u := tab.url.getD ""
      let title := titleOr tab.title "Untitled"
      let fav := tab.favIconUrl.getD ""
      let call := Effect.addTabCall cid title u fav
      let restResult := saveCurrentTabsLoop gfv okf idf cid existingUrls rest (n + 1)
      if okf n then
        (addTabResult gfv (idf n) title u fav :: restResult.1, call :: restResult.2)
      else (restResult.1, call :: restResult.2)
    else saveCurrentTabsLoop gfv okf idf cid existingUrls rest n

/-- `saveCurrentTabs(collectionId)` over the current window's tabs. -/
def saveCurrentTabs (gfv : String → String) (okf : Nat → Bool)
    (idf : Nat → String) (cols : List Collection) (collectionId : String)
    (windowTabs : List BrowserTab) : List Collection × List Effect :=
  match cols.find? (fun c => c.id = collectionId) with
  | none => (cols, [])
  | some collection =>
    let existingUrls := collection.tabs.map (fun t => t.url)
    let result := saveCurrentTabsLoop gfv okf idf collectionId existingUrls
      windowTabs 0
    (updateFirstCollection cols collectionId
      (fun c => { c with tabs := c.tabs ++ result.1 }), result.2)

/-! ## Collection UI-state store and collection reorder
(`storage.ts` `CollectionUIState(s)` 295-302, `App.vue`
`saveCollectionOrder` 646-656, `onCollectionDrop` 621-643, and the startup
reconciliation of `onMounted` lines 199-212) -/

/-- `CollectionUIState` from `storage.ts`: per-collection expand flag and
sort order. -/
structure CollectionUIState where
  expanded : Bool
  order : Nat
deriving DecidableEq

/-- The `CollectionUIStates` mapping from collection id to UI state,
modelled as a lookup function (`none` = key absent). -/
abbrev UIStatesMap := String → Option CollectionUIState

/-- `states[id] = v` on a JS object: point update of the mapping. -/
def setUIState (states : UIStatesMap) (id : String) (v : CollectionUIState) :
    UIStatesMap :=
  fun k => if k = id then some v else states k

/-- The `forEach` of `saveCollectionOrder`: write
`{ ...states[c.id], expanded: c.expanded || false, order: index }` for each
collection, indices counting up from `i`. Both fields are overwritten, so
the spread of the prior record leaves no trace. -/
def writeOrders (cols : List Collection) (i : Nat) (states : UIStatesMap) :
    UIStatesMap :=
  match cols with
  | [] => states
  | c :: rest =>
    writeOrders rest (i + 1) (setUIState states c.id ⟨c.expanded, i⟩)

/-- `saveCollectionOrder()` applied to the current collection list and the
freshly loaded UI states: every collection's entry gets `order :=` its index
in the list. -/
def saveCollectionOrder (cols : List Collection) (states : UIStatesMap) :
    UIStatesMap :=
  writeOrders cols 0 states

/-- `onCollectionDrop(targetCollectionId)`: splice the dragged collection to
the target's pre-splice index and persist the full order. Returns the new
list, the new UI states, and the reset `draggedCollection` marker. -/
def onCollectionDrop (cols : List Collection)
    (draggedCollection : Option String) (targetCollectionId : String)
    (states : UIStatesMap) :
    List Collection × UIStatesMap × Option String :=
  match draggedCollection with
  | none => (cols, states, none)
  | some dc =>
    if dc = targetCollectionId then (cols, states, none)
    else
      match cols.findIdx? (fun c => c.id = dc),
            cols.findIdx? (fun c => c.id = targetCollectionId) with
      | some sourceIndex, some targetIndex =>
        match cols.get? sourceIndex with
        | some movedCollection =>
          let newCols :=
            (cols.eraseIdx sourceIndex).insertIdx targetIndex movedCollection
          (newCols, saveCollectionOrder newCols states, none)
        | none => (cols, states, none)
      | _, _ => (cols, states, none)

/-- The startup map of `onMounted`:
`{ ...c, expanded: uiStates[c.id]?.expanded || false }`. -/
def applyUIStates (states : UIStatesMap) (cols : List Collection) :
    List Collection :=
  cols.map (fun c =>
    { c with expanded := ((states c.id).map (fun st => st.expanded)).getD false })

/-- `uiStates[c.id]?.order ?? Infinity`: the sort key, `none` = missing =
`Infinity`. -/
def orderKey (states : UIStatesMap) (c : Collection) : Option Nat :=
  (states c.id).map (fun st => st.order)

/-- The startup sort comparator `orderA - orderB` read as a boolean
"less-or-equal" (`Infinity - Infinity` is `NaN`, which the sort treats as
equal, hence `true` on both sides). -/
def orderLe (states : UIStatesMap) (a b : Collection) : Bool :=
  match orderKey states a, orderKey states b with
  | some x, some y => x ≤ y
  | some _, none => true
  | none, some _ => false
  | none, none => true

/-- The startup reconciliation of the loaded collections: apply the UI
states, then stable-sort by the saved order values. -/
def startupSortCollections (states : UIStatesMap) (cols : List Collection) :
    List Collection :=
  (applyUIStates states cols).mergeSort (orderLe states)

/-! ## Persisted-data coercion (`types.ts` storage fallback,
`loadCollections` 44-74 and `loadGroups` 102-132)

The value read back from `browser.storage.local` is modelled as a JSON-like
`PVal` (`none` = key absent / `undefined`). -/

/-- A persisted JavaScript value. -/
inductive PVal where
  | null
  | bool (b : Bool)
  | num (n : Int)
  | str (s : String)
  | arr (xs : List PVal)
  | obj (fields : List (String × PVal))

/-- JS truthiness of a persisted value. -/
def jsTruthy : PVal → Bool
  | PVal.null => false
  | PVal.bool b => b
  | PVal.num n => n ≠ 0
  | PVal.str s => s ≠ ""
  | PVal.arr _ => true
  | PVal.obj _ => true

/-- `typeof v === 'object'` (true for objects, arrays and `null`). -/
def typeofObject : PVal → Bool
  | PVal.null => true
  | PVal.arr _ => true
  | PVal.obj _ => true
  | _ => false

/-- `Array.isArray(v)`. -/
def isJsArray : PVal → Bool
  | PVal.arr _ => true
  | _ => false

/-- `Object.values(v)` (the element list for an array). -/
def objectValues : PVal → List PVal
  | PVal.obj fields => fields.map (fun p => p.2)
  | PVal.arr xs => xs
  | _ => []

/-- `'id' in v`. -/
def hasIdKey : PVal → Bool
  | PVal.obj fields => fields.any (fun p => p.1 = "id")
  | _ => false

/-- The value check of the legacy-object branch:
`v && typeof v === 'object' && 'id' in v`. -/
def legacyValueOk (v : PVal) : Bool :=
  jsTruthy v && typeofObject v && hasIdKey v

/-- The data massaging of the fallback `loadCollections` (`types.ts`
44-74): an array is returned as is; a truthy object whose values are all
id-bearing objects is converted to the array of its values; anything else
yields the empty array. The surrounding `try`/`catch` makes the function
total. -/
def loadCollectionsData (data : Option PVal) : List PVal :=
  match data with
  | none => []
  | some d =>
    match d with
    | PVal.arr xs => xs
    | _ =>
      if jsTruthy d && typeofObject d then
        let values := objectValues d
        if values.length > 0 && values.all legacyValueOk then values
        else []
      else []

/-- The data massaging of the fallback `loadGroups` (`types.ts` 102-132):
identical to `loadCollectionsData`. -/
def loadGroupsData (data : Option PVal) : List PVal :=
  match data with
  | none => []
  | some d =>
    match d with
    | PVal.arr xs => xs
    | _ =>
      if jsTruthy d && typeofObject d then
        let values := objectValues d
        if values.length > 0 && values.all legacyValueOk then values
        else []
      else []

/-- A legacy (pre-array) persisted value: an object keyed by id whose values
are id-bearing records. -/
def legacyObject : PVal :=
  PVal.obj [("a", PVal.obj [("id", PVal.str "c1")])]

/-! # Theorems -/

/-! ## C6 — drag markers -/

/-- C6 (counterexample): the claim says every drag-start handler clears all
other drag markers, so at most one marker would be non-null after any
drag-start; but `onGroupDragStart` from a state with a dragged tab leaves
two markers non-null. -/
theorem claim6_counterexample :
    ¬ markerCount (onGroupDragStart ⟨some ⟨"c1", "t1"⟩, none, none, none⟩ "g1") ≤ 1 := by
  decide

/-- C6 (amended): tab and open-tab drag-starts clear each other's marker,
and a collection drag-start clears both tab-level markers, so each keeps
the at-most-one-marker bound when no untouched marker (collection/group,
resp. group) was already set; `onGroupDragStart` clears nothing, so it
never decreases the number of non-null markers. -/
theorem claim6_amended (m : DragMarkers) (cid tid gid : String)
    (tab : BrowserTab) :
    (m.draggedCollection = none → m.draggedGroup = none →
      markerCount (onDragStart m cid tid) ≤ 1 ∧
      markerCount (onDragStartOpenTab m tab) ≤ 1) ∧
    (m.draggedGroup = none → markerCount (onCollectionDragStart m cid) ≤ 1) ∧
    markerCount m ≤ markerCount (onGroupDragStart m gid) := by
  obtain ⟨t, o, c, g⟩ := m
  refine ⟨fun hc hg => ?_, fun hg => ?_, ?_⟩
  · cases hc; cases hg
    simp [onDragStart, onDragStartOpenTab, markerCount]
  · cases hg
    simp [onCollectionDragStart, markerCount]
  · cases g <;> simp [onGroupDragStart, markerCount]

/-- C6 (witness for the amended theorem). -/
theorem claim6_amended_witness :
    markerCount (onDragStart ⟨none, none, none, none⟩ "c" "t") ≤ 1 ∧
    markerCount (onCollectionDragStart ⟨none, none, none, none⟩ "c") ≤ 1 ∧
    markerCount (⟨none, none, none, none⟩ : DragMarkers) ≤
      markerCount (onGroupDragStart ⟨none, none, none, none⟩ "g") := by
  have h := claim6_amended ⟨none, none, none, none⟩ "c" "t" "g"
    ⟨none, none, none, none⟩
  exact ⟨(h.1 rfl rfl).1, h.2.1 rfl, h.2.2⟩

/-! ## C5 — empty rename commit -/

/-- C5: committing a group, collection or tab rename whose edited name trims
to the empty string leaves the entity unchanged, issues no adapter call, and
resets the editing id to `null`. -/
theorem claim5_empty_rename_noop (g : Group) (c : Collection)
    (cols : List Collection) (cid tid editingName : String) (ok : Bool)
    (h : jsTrim editingName = "") :
    saveGroupName g editingName ok = (g, none, []) ∧
    saveCollectionName c editingName ok = (c, none, []) ∧
    saveTabName cols cid tid editingName ok = (cols, none, []) := by
  refine ⟨?_, ?_, ?_⟩
  · simp [saveGroupName, h]
  · simp [saveCollectionName, h]
  · unfold saveTabName
    split
    · rfl
    · split
      · rfl
      · simp [h]

/-- C5 (witness): a whitespace-only edit on concrete entities. -/
theorem claim5_empty_rename_noop_witness :
    saveGroupName ⟨"g1", "Work", 0⟩ "   " true = (⟨"g1", "Work", 0⟩, none, []) ∧
    saveCollectionName ⟨"c1", "Docs", [], 0, "g1", false⟩ "   " true =
      (⟨"c1", "Docs", [], 0, "g1", false⟩, none, []) ∧
    saveTabName [⟨"c1", "Docs", [⟨"t1", "A", "https://a.com", ""⟩], 0, "g1", false⟩]
      "c1" "t1" "   " true =
      ([⟨"c1", "Docs", [⟨"t1", "A", "https://a.com", ""⟩], 0, "g1", false⟩], none, []) := by
  exact claim5_empty_rename_noop _ _ _ "c1" "t1" "   " true (by decide)

/-! ## C2 — group delete removes its collections; groupId invariant -/

theorem groupRefInvariant_createGroupStep (s : AppState) (name : String)
    (g : Group) (ok : Bool) (h : groupRefInvariant s) :
    groupRefInvariant (createGroupStep s name g ok) := by
  unfold createGroupStep
  split
  · split
    · intro c hc
      obtain ⟨g', hg', hid⟩ := h c hc
      exact ⟨g', List.mem_append_left _ hg', hid⟩
    · exact h
  · exact h

theorem groupRefInvariant_deleteGroupStep (s : AppState) (id : String)
    (confirmed ok : Bool) (h : groupRefInvariant s) :
    groupRefInvariant (deleteGroupStep s id confirmed ok) := by
  unfold deleteGroupStep
  split
  · intro c hc
    rw [List.mem_filter] at hc
    obtain ⟨hcmem, hcver⟩ := hc
    obtain ⟨g', hg', hid⟩ := h c hcmem
    refine ⟨g', List.mem_filter.mpr ⟨hg', ?_⟩, hid⟩
    simpa [hid] using hcver
  · exact h

/-- C2: deleting a group with id `G` (confirmed, adapter call resolved)
leaves no collection whose `groupId` is `G` in the in-memory list; and over
every sequence of group create/delete operations the invariant "each
collection's `groupId` references a group in the groups list" is
preserved. -/
theorem claim2_delete_group_invariant (s : AppState) (ops : List GroupOp)
    (G : String) (h : groupRefInvariant s) :
    (∀ c ∈ (deleteGroupStep s G true true).collections, c.groupId ≠ G) ∧
    groupRefInvariant (runGroupOps s ops) := by
  constructor
  · intro c hc
    unfold deleteGroupStep at hc
    simp only [Bool.and_self, if_true] at hc
    rw [List.mem_filter] at hc
    simpa using hc.2
  · induction ops generalizing s with
    | nil => exact h
    | cons op rest ih =>
      cases op with
      | create name g ok =>
        exact ih _ (groupRefInvariant_createGroupStep s name g ok h)
      | delete id c ok =>
        exact ih _ (groupRefInvariant_deleteGroupStep s id c ok h)

/-- C2 (witness): a concrete two-group state with one collection each. -/
theorem claim2_delete_group_invariant_witness :
    (∀ c ∈ (deleteGroupStep
        ⟨[⟨"g1", "Work", 0⟩, ⟨"g2", "Play", 0⟩],
         [⟨"c1", "Docs", [], 0, "g1", false⟩, ⟨"c2", "Fun", [], 0, "g2", false⟩],
         "g1"⟩ "g1" true true).collections, c.groupId ≠ "g1") ∧
    groupRefInvariant (runGroupOps
      ⟨[⟨"g1", "Work", 0⟩, ⟨"g2", "Play", 0⟩],
       [⟨"c1", "Docs", [], 0, "g1", false⟩, ⟨"c2", "Fun", [], 0, "g2", false⟩],
       "g1"⟩ [GroupOp.delete "g1" true true]) := by
  exact claim2_delete_group_invariant _ [GroupOp.delete "g1" true true] "g1"
    (by unfold groupRefInvariant; decide)

/-! ## C8 — malformed persisted data -/

/-- C8 (counterexample): a legacy non-array object whose values are
id-bearing records is converted to the (non-empty) array of its values, not
coerced to the empty collection as the claim states. -/
theorem claim8_counterexample :
    (loadCollectionsData (some legacyObject)).length = 1 ∧
    (loadGroupsData (some legacyObject)).length = 1 := by
  constructor <;> rfl

/-- C8 (amended): for every persisted value that is not an array, the load
functions never throw and return either the empty array, or — when the
value is an object all of whose values are truthy id-bearing objects — the
converted array of those values; both load functions behave identically. -/
theorem claim8_amended (data : Option PVal)
    (h : ∀ xs, data ≠ some (PVal.arr xs)) :
    (loadCollectionsData data = [] ∨
      ∃ d, data = some d ∧ (objectValues d).all legacyValueOk = true ∧
        loadCollectionsData data = objectValues d) ∧
    loadGroupsData data = loadCollectionsData data := by
  cases data with
  | none => exact ⟨Or.inl rfl, rfl⟩
  | some d =>
    cases d with
    | arr xs => exact absurd rfl (h xs)
    | null => exact ⟨Or.inl rfl, rfl⟩
    | bool b =>
      exact ⟨Or.inl (by simp [loadCollectionsData, jsTruthy, typeofObject]), rfl⟩
    | num n =>
      exact ⟨Or.inl (by simp [loadCollectionsData, jsTruthy, typeofObject]), rfl⟩
    | str s =>
      exact ⟨Or.inl (by simp [loadCollectionsData, jsTruthy, typeofObject]), rfl⟩
    | obj fields =>
      refine ⟨?_, rfl⟩
      unfold loadCollectionsData
      simp only [jsTruthy, typeofObject, Bool.and_self, if_true]
      split
      · rename_i hcond
        exact Or.inr ⟨PVal.obj fields, rfl, (Bool.and_eq_true _ _).mp hcond |>.2, rfl⟩
      · exact Or.inl rfl

/-- C8 (witness for the amended theorem): a non-array, non-object value. -/
theorem claim8_amended_witness :
    (loadCollectionsData (some (PVal.str "oops")) = [] ∨
      ∃ d, some (PVal.str "oops") = some d ∧
        (objectValues d).all legacyValueOk = true ∧
        loadCollectionsData (some (PVal.str "oops")) = objectValues d) ∧
    loadGroupsData (some (PVal.str "oops")) =
      loadCollectionsData (some (PVal.str "oops")) := by
  exact claim8_amended (some (PVal.str "oops"))
    (fun xs hcon => PVal.noConfusion (Option.some.inj hcon))

/-! ## C3 — group drag reorder -/

/-- C3: dropping group S onto a distinct, present group T issues exactly one
adapter index-move call (to T's original index), the local list becomes the
original with S spliced out and re-inserted at T's original index — so S
ends up at the target index — and the local result is the same whether or
not the adapter call succeeds. -/
theorem claim3_group_drop_reorder (groups : List Group)
    (dg target : String) (ok : Bool) (si ti : Nat) (movedGroup : Group)
    (hne : dg ≠ target)
    (hsi : groups.findIdx? (fun g => g.id = dg) = some si)
    (hti : groups.findIdx? (fun g => g.id = target) = some ti)
    (hmv : groups.get? si = some movedGroup) :
    onGroupDrop groups (some dg) target ok =
      ((groups.eraseIdx si).insertIdx ti movedGroup, none,
        [Effect.moveGroupToIndexCall dg ti]) ∧
    ((groups.eraseIdx si).insertIdx ti movedGroup).get? ti = some movedGroup ∧
    onGroupDrop groups (some dg) target true =
      onGroupDrop groups (some dg) target false := by
  have hsilt : si < groups.length :=
    (List.findIdx?_eq_some_iff_findIdx_eq.mp hsi).1
  have htilt : ti < groups.length :=
    (List.findIdx?_eq_some_iff_findIdx_eq.mp hti).1
  refine ⟨?_, ?_, rfl⟩
  · have hmv' : groups[si]? = some movedGroup := by
      rw [← List.get?_eq_getElem?]; exact hmv
    unfold onGroupDrop
    simp [hne, hsi, hti, hmv']
  · have hlen : (groups.eraseIdx si).length = groups.length - 1 := by
      rw [List.length_eraseIdx]
      simp [hsilt]
    have htile : ti ≤ (groups.eraseIdx si).length := by omega
    have hlt : ti < ((groups.eraseIdx si).insertIdx ti movedGroup).length := by
      rw [List.length_insertIdx ti _ htile]
      omega
    rw [List.get?_eq_getElem?, List.getElem?_eq_getElem hlt,
      List.getElem_insertIdx_self _ _ _ htile]

/-- C3 (witness): dragging the first of three groups onto the third. -/
theorem claim3_group_drop_reorder_witness :
    onGroupDrop [⟨"g1", "A", 0⟩, ⟨"g2", "B", 0⟩, ⟨"g3", "C", 0⟩]
        (some "g1") "g3" true =
      (([⟨"g1", "A", 0⟩, ⟨"g2", "B", 0⟩, ⟨"g3", "C", 0⟩].eraseIdx 0).insertIdx 2
          ⟨"g1", "A", 0⟩, none, [Effect.moveGroupToIndexCall "g1" 2]) ∧
    (([⟨"g1", "A", 0⟩, ⟨"g2", "B", 0⟩, ⟨"g3", "C", 0⟩].eraseIdx 0).insertIdx 2
        (⟨"g1", "A", 0⟩ : Group)).get? 2 = some ⟨"g1", "A", 0⟩ ∧
    onGroupDrop [⟨"g1", "A", 0⟩, ⟨"g2", "B", 0⟩, ⟨"g3", "C", 0⟩]
        (some "g1") "g3" true =
      onGroupDrop [⟨"g1", "A", 0⟩, ⟨"g2", "B", 0⟩, ⟨"g3", "C", 0⟩]
        (some "g1") "g3" false := by
  exact claim3_group_drop_reorder _ "g1" "g3" true 0 2 ⟨"g1", "A", 0⟩
    (by decide) (by decide) (by decide) (by decide)

/-! ## C7 — same-collection tab drop reorders locally only -/

/-- C7: a drop of a saved tab onto another tab of the same collection only
splices the in-memory tabs array (the moved tab is removed from its source
index and re-inserted at the target index) and issues no adapter call and
no storage write — the effect list is empty, so the persisted backend is
untouched. -/
theorem claim7_same_collection_reorder_local_only (gfv : String → String)
    (newId : String) (ok : Bool) (s : DropState) (cid ttid stid : String)
    (collection : Collection) (si ti : Nat) (movedTab : TabItem)
    (hopen : s.draggedOpenTab = none)
    (hdt : s.draggedTab = some ⟨cid, stid⟩)
    (hfind : s.collections.find? (fun c => c.id = cid) = some collection)
    (hsi : collection.tabs.findIdx? (fun t => t.id = stid) = some si)
    (hti : collection.tabs.findIdx? (fun t => t.id = ttid) = some ti)
    (hne : si ≠ ti)
    (hmv : collection.tabs.get? si = some movedTab) :
    (onTabDrop gfv newId ok s cid ttid).2 = [] ∧
    ((onTabDrop gfv newId ok s cid ttid).1).collections =
      updateFirstCollection s.collections cid
        (fun c => { c with tabs := (c.tabs.eraseIdx si).insertIdx ti movedTab }) ∧
    ((onTabDrop gfv newId ok s cid ttid).1).draggedTab = none ∧
    ((onTabDrop gfv newId ok s cid ttid).1).draggedOpenTab = s.draggedOpenTab := by
  have hmv' : collection.tabs[si]? = some movedTab := by
    rw [← List.get?_eq_getElem?]; exact hmv
  unfold onTabDrop
  simp [hfind, hopen, hdt, hsi, hti, hne, hmv']

/-- C7 (witness): moving the first of three tabs onto the third. -/
theorem claim7_same_collection_reorder_witness :
    (onTabDrop (fun _ => "") "b1" true
      ⟨[⟨"c1", "Docs", [⟨"t1", "A", "https://a.com", ""⟩,
          ⟨"t2", "B", "https://b.com", ""⟩, ⟨"t3", "C", "https://c.com", ""⟩],
          0, "g1", false⟩], some ⟨"c1", "t1"⟩, none, none, none⟩
      "c1" "t3").2 = [] ∧
    ((onTabDrop (fun _ => "") "b1" true
      ⟨[⟨"c1", "Docs", [⟨"t1", "A", "https://a.com", ""⟩,
          ⟨"t2", "B", "https://b.com", ""⟩, ⟨"t3", "C", "https://c.com", ""⟩],
          0, "g1", false⟩], some ⟨"c1", "t1"⟩, none, none, none⟩
      "c1" "t3").1).collections =
      updateFirstCollection
        [⟨"c1", "Docs", [⟨"t1", "A", "https://a.com", ""⟩,
          ⟨"t2", "B", "https://b.com", ""⟩, ⟨"t3", "C", "https://c.com", ""⟩],
          0, "g1", false⟩] "c1"
        (fun c => { c with tabs := (c.tabs.eraseIdx 0).insertIdx 2 ⟨"t1", "A", "https://a.com", ""⟩ }) := by
  have h := claim7_same_collection_reorder_local_only (fun _ => "") "b1" true
    ⟨[⟨"c1", "Docs", [⟨"t1", "A", "https://a.com", ""⟩,
        ⟨"t2", "B", "https://b.com", ""⟩, ⟨"t3", "C", "https://c.com", ""⟩],
        0, "g1", false⟩], some ⟨"c1", "t1"⟩, none, none, none⟩
    "c1" "t3" "t1"
    ⟨"c1", "Docs", [⟨"t1", "A", "https://a.com", ""⟩,
        ⟨"t2", "B", "https://b.com", ""⟩, ⟨"t3", "C", "https://c.com", ""⟩],
        0, "g1", false⟩ 0 2 ⟨"t1", "A", "https://a.com", ""⟩
    rfl rfl (by decide) (by decide) (by decide) (by decide) (by decide)
  exact ⟨h.1, h.2.1⟩

/-! ## C9 — adapter failure leaves the mirror unchanged -/

/-- C9: when the awaited adapter call of a tab deletion or a (cross- or
into-collection) tab move throws, the in-memory collections are exactly as
before, because the local splice runs only after the `await` resolves; for
`onTabDrop` this holds whenever the run issued any adapter call (the
call-free same-collection reorder is local by design). -/
theorem claim9_adapter_throw_keeps_mirror (gfv : String → String)
    (newId : String) (s : DropState) (cols : List Collection)
    (cid tid dcid dttid : String) :
    (deleteTab false cols cid tid).1 = cols ∧
    ((onDropToCollection gfv newId false s dcid).1).collections =
      s.collections ∧
    ((onTabDrop gfv newId false s dcid dttid).2 ≠ [] →
      ((onTabDrop gfv newId false s dcid dttid).1).collections =
        s.collections) := by
  refine ⟨?_, ?_, ?_⟩
  · unfold deleteTab
    split <;> simp
  · unfold onDropToCollection
    repeat' split
    all_goals (try rfl)
    all_goals (try simp_all)
    all_goals (split <;> simp_all)
  · have aux : (onTabDrop gfv newId false s dcid dttid).2 = [] ∨
        ((onTabDrop gfv newId false s dcid dttid).1).collections =
          s.collections := by
      unfold onTabDrop
      repeat' split
      all_goals (try (exact Or.inl rfl))
      all_goals (try simp_all)
      all_goals (split <;> simp_all)
    intro hne
    cases aux with
    | inl h0 => exact absurd h0 hne
    | inr h1 => exact h1

/-- C9 (witness): a failing cross-collection move (the issued move call is
recorded, the mirror is untouched). -/
theorem claim9_adapter_throw_keeps_mirror_witness :
    (deleteTab false [⟨"c1", "Docs", [⟨"t1", "A", "https://a.com", ""⟩], 0,
        "g1", false⟩] "c1" "t1").1 =
      [⟨"c1", "Docs", [⟨"t1", "A", "https://a.com", ""⟩], 0, "g1", false⟩] ∧
    ((onDropToCollection (fun _ => "") "b1" false
      ⟨[⟨"c1", "Docs", [⟨"t1", "A", "https://a.com", ""⟩], 0, "g1", false⟩,
        ⟨"c2", "Fun", [], 0, "g1", false⟩], some ⟨"c1", "t1"⟩, none, none, none⟩
      "c2").1).collections =
      [⟨"c1", "Docs", [⟨"t1", "A", "https://a.com", ""⟩], 0, "g1", false⟩,
        ⟨"c2", "Fun", [], 0, "g1", false⟩] ∧
    ((onTabDrop (fun _ => "") "b1" false
      ⟨[⟨"c1", "Docs", [⟨"t1", "A", "https://a.com", ""⟩], 0, "g1", false⟩,
        ⟨"c2", "Fun", [⟨"t2", "B", "https://b.com", ""⟩], 0, "g1", false⟩],
        some ⟨"c1", "t1"⟩, none, none, none⟩ "c2" "t2").1).collections =
      [⟨"c1", "Docs", [⟨"t1", "A", "https://a.com", ""⟩], 0, "g1", false⟩,
        ⟨"c2", "Fun", [⟨"t2", "B", "https://b.com", ""⟩], 0, "g1", false⟩] := by
  have h1 := claim9_adapter_throw_keeps_mirror (fun _ => "") "b1"
    ⟨[⟨"c1", "Docs", [⟨"t1", "A", "https://a.com", ""⟩], 0, "g1", false⟩,
      ⟨"c2", "Fun", [], 0, "g1", false⟩], some ⟨"c1", "t1"⟩, none, none, none⟩
    [⟨"c1", "Docs", [⟨"t1", "A", "https://a.com", ""⟩], 0, "g1", false⟩]
    "c1" "t1" "c2" "x"
  have h2 := claim9_adapter_throw_keeps_mirror (fun _ => "") "b1"
    ⟨[⟨"c1", "Docs", [⟨"t1", "A", "https://a.com", ""⟩], 0, "g1", false⟩,
      ⟨"c2", "Fun", [⟨"t2", "B", "https://b.com", ""⟩], 0, "g1", false⟩],
      some ⟨"c1", "t1"⟩, none, none, none⟩
    [] "c1" "t1" "c2" "t2"
  exact ⟨h1.1, h1.2.1, h2.2.2 (by decide)⟩

/-! ## C10 — system-url open tabs are never saved -/

/-- C10: an open browser tab whose url is missing or starts with one of the
system prefixes of `excludeUrls` is invalid; dropping it onto a collection
changes no collection and issues no call, and the bulk save of the current
window's tabs skips it entirely. -/
theorem claim10_invalid_url_never_added (gfv : String → String)
    (newId : String) (ok : Bool) (okf : Nat → Bool) (idf : Nat → String)
    (s : DropState) (tcid cid : String) (tab : BrowserTab)
    (cols : List Collection) (rest : List BrowserTab)
    (h : tab.url = none ∨
      ∃ u p, tab.url = some u ∧ p ∈ excludeUrls ∧ jsStartsWith u p)
    (hdrag : s.draggedOpenTab = some tab) :
    isValidTabUrl tab.url = false ∧
    ((onDropToCollection gfv newId ok s tcid).1).collections =
      s.collections ∧
    (onDropToCollection gfv newId ok s tcid).2 = [] ∧
    saveCurrentTabs gfv okf idf cols cid (tab :: rest) =
      saveCurrentTabs gfv okf idf cols cid rest := by
  have hvalid : isValidTabUrl tab.url = false := by
    rcases h with hnone | ⟨u, p, hu, hp, hpre⟩
    · rw [hnone]; rfl
    · rw [hu]
      unfold isValidTabUrl
      by_cases hu0 : u = ""
      · simp [hu0]
      · simp only [hu0, if_false]
        simp only [Bool.not_eq_false']
        exact List.any_eq_true.mpr ⟨p, hp, hpre⟩
  have hdrop : ((onDropToCollection gfv newId ok s tcid).1).collections =
      s.collections ∧ (onDropToCollection gfv newId ok s tcid).2 = [] := by
    unfold onDropToCollection
    cases hf : s.collections.find? (fun c => c.id = tcid) with
    | none => exact ⟨rfl, rfl⟩
    | some tc => simp [hdrag, hvalid]
  refine ⟨hvalid, hdrop.1, hdrop.2, ?_⟩
  unfold saveCurrentTabs
  cases hf : cols.find? (fun c => c.id = cid) with
  | none => rfl
  | some collection => simp [saveCurrentTabsLoop, hvalid]

/-- C10 (witness): dropping and bulk-saving a `chrome://` tab. -/
theorem claim10_invalid_url_never_added_witness :
    isValidTabUrl (some "chrome://settings") = false ∧
    ((onDropToCollection (fun _ => "") "b1" true
      ⟨[⟨"c1", "Docs", [], 0, "g1", false⟩], none,
        some ⟨some 1, some "chrome://settings", some "Settings", none⟩,
        none, none⟩ "c1").1).collections =
      [⟨"c1", "Docs", [], 0, "g1", false⟩] ∧
    (onDropToCollection (fun _ => "") "b1" true
      ⟨[⟨"c1", "Docs", [], 0, "g1", false⟩], none,
        some ⟨some 1, some "chrome://settings", some "Settings", none⟩,
        none, none⟩ "c1").2 = [] ∧
    saveCurrentTabs (fun _ => "") (fun _ => true) (fun _ => "b2")
      [⟨"c1", "Docs", [], 0, "g1", false⟩] "c1"
      [⟨some 1, some "chrome://settings", some "Settings", none⟩] =
    saveCurrentTabs (fun _ => "") (fun _ => true) (fun _ => "b2")
      [⟨"c1", "Docs", [], 0, "g1", false⟩] "c1" [] := by
  have h := claim10_invalid_url_never_added (fun _ => "") "b1" true
    (fun _ => true) (fun _ => "b2")
    ⟨[⟨"c1", "Docs", [], 0, "g1", false⟩], none,
      some ⟨some 1, some "chrome://settings", some "Settings", none⟩,
      none, none⟩ "c1" "c1"
    ⟨some 1, some "chrome://settings", some "Settings", none⟩
    [⟨"c1", "Docs", [], 0, "g1", false⟩] []
    (Or.inr ⟨"chrome://settings", "chrome://", rfl, by decide, by decide⟩)
    rfl
  exact h

/-! ## C1 — duplicate-url drops are no-ops -/

/-- C1: for both drop handlers and both kinds of dragged tab (open browser
tab, saved tab from another collection), when the target collection already
holds a tab with the dragged url, the drop leaves the collections list
unchanged and issues no adapter create/move call. -/
theorem claim1_duplicate_url_drop_noop (gfv : String → String)
    (newId : String) (ok : Bool) :
    (∀ (s : DropState) (tcid : String) (tab : BrowserTab)
      (tc : Collection) (u : String),
      s.collections.find? (fun c => c.id = tcid) = some tc →
      s.draggedOpenTab = some tab → tab.url = some u →
      tc.tabs.any (fun t => t.url = u) = true →
      ((onDropToCollection gfv newId ok s tcid).1).collections =
        s.collections ∧
      (onDropToCollection gfv newId ok s tcid).2 = []) ∧
    (∀ (s : DropState) (tcid : String) (dt : DraggedTab)
      (tc sc : Collection) (si : Nat) (sourceTab : TabItem),
      s.collections.find? (fun c => c.id = tcid) = some tc →
      s.draggedOpenTab = none → s.draggedTab = some dt →
      s.collections.find? (fun c => c.id = dt.collectionId) = some sc →
      sc.tabs.findIdx? (fun t => t.id = dt.tabId) = some si →
      sc.tabs.get? si = some sourceTab →
      tc.tabs.any (fun t => t.url = sourceTab.url) = true →
      ((onDropToCollection gfv newId ok s tcid).1).collections =
        s.collections ∧
      (onDropToCollection gfv newId ok s tcid).2 = []) ∧
    (∀ (s : DropState) (cid ttid : String) (tab : BrowserTab)
      (collection : Collection) (u : String),
      s.collections.find? (fun c => c.id = cid) = some collection →
      s.draggedOpenTab = some tab → tab.url = some u →
      collection.tabs.any (fun t => t.url = u) = true →
      ((onTabDrop gfv newId ok s cid ttid).1).collections = s.collections ∧
      (onTabDrop gfv newId ok s cid ttid).2 = []) ∧
    (∀ (s : DropState) (cid ttid : String) (dt : DraggedTab)
      (collection sc : Collection) (si : Nat) (sourceTab : TabItem),
      s.collections.find? (fun c => c.id = cid) = some collection →
      s.draggedOpenTab = none → s.draggedTab = some dt →
      dt.collectionId ≠ cid →
      s.collections.find? (fun c => c.id = dt.collectionId) = some sc →
      sc.tabs.findIdx? (fun t => t.id = dt.tabId) = some si →
      sc.tabs.get? si = some sourceTab →
      collection.tabs.any (fun t => t.url = sourceTab.url) = true →
      ((onTabDrop gfv newId ok s cid ttid).1).collections = s.collections ∧
      (onTabDrop gfv newId ok s cid ttid).2 = []) := by
  refine ⟨?_, ?_, ?_, ?_⟩
  · intro s tcid tab tc u hfind hdrag hurl hdup
    unfold onDropToCollection
    by_cases hg : (urlTruthy tab.url && isValidTabUrl tab.url) = true
    · simp [hfind, hdrag, hg, hurl, hdup]
    · simp [hfind, hdrag, hg]
  · intro s tcid dt tc sc si sourceTab hfindT hopen hdt hfindS hsi hmv hdup
    have hmv' : sc.tabs[si]? = some sourceTab := by
      rw [← List.get?_eq_getElem?]; exact hmv
    unfold onDropToCollection
    by_cases hsame : dt.collectionId = tcid
    · simp [hfindT, hopen, hdt, hsame]
    · simp [hfindT, hopen, hdt, hsame, hfindS, hsi, hmv', hdup]
  · intro s cid ttid tab collection u hfind hdrag hurl hdup
    unfold onTabDrop
    by_cases hg : (urlTruthy tab.url && isValidTabUrl tab.url) = true
    · simp [hfind, hdrag, hg, hurl, hdup]
    · simp [hfind, hdrag, hg]
  · intro s cid ttid dt collection sc si sourceTab hfind hopen hdt hne
      hfindS hsi hmv hdup
    have hmv' : sc.tabs[si]? = some sourceTab := by
      rw [← List.get?_eq_getElem?]; exact hmv
    unfold onTabDrop
    simp [hfind, hopen, hdt, hne, hfindS, hsi, hmv', hdup]

/-- C1 (witness): a target collection already holding `https://a.com`
rejects an open-tab drop and a saved-tab drop (through both handlers). -/
theorem claim1_duplicate_url_drop_noop_witness :
    ((onDropToCollection (fun _ => "") "b1" true
      ⟨[⟨"c1", "Docs", [⟨"t1", "A", "https://a.com", ""⟩], 0, "g1", false⟩],
        none, some ⟨some 1, some "https://a.com", some "A", none⟩, none, none⟩
      "c1").1).collections =
      [⟨"c1", "Docs", [⟨"t1", "A", "https://a.com", ""⟩], 0, "g1", false⟩] ∧
    (onDropToCollection (fun _ => "") "b1" true
      ⟨[⟨"c1", "Docs", [⟨"t1", "A", "https://a.com", ""⟩], 0, "g1", false⟩],
        none, some ⟨some 1, some "https://a.com", some "A", none⟩, none, none⟩
      "c1").2 = [] ∧
    ((onDropToCollection (fun _ => "") "b1" true
      ⟨[⟨"c1", "Docs", [⟨"t1", "A", "https://a.com", ""⟩], 0, "g1", false⟩,
        ⟨"c2", "Fun", [⟨"t2", "A2", "https://a.com", ""⟩], 0, "g1", false⟩],
        some ⟨"c2", "t2"⟩, none, none, none⟩ "c1").1).collections =
      [⟨"c1", "Docs", [⟨"t1", "A", "https://a.com", ""⟩], 0, "g1", false⟩,
        ⟨"c2", "Fun", [⟨"t2", "A2", "https://a.com", ""⟩], 0, "g1", false⟩] ∧
    ((onTabDrop (fun _ => "") "b1" true
      ⟨[⟨"c1", "Docs", [⟨"t1", "A", "https://a.com", ""⟩], 0, "g1", false⟩],
        none, some ⟨some 1, some "https://a.com", some "A", none⟩, none, none⟩
      "c1" "t1").1).collections =
      [⟨"c1", "Docs", [⟨"t1", "A", "https://a.com", ""⟩], 0, "g1", false⟩] ∧
    ((onTabDrop (fun _ => "") "b1" true
      ⟨[⟨"c1", "Docs", [⟨"t1", "A", "https://a.com", ""⟩], 0, "g1", false⟩,
        ⟨"c2", "Fun", [⟨"t2", "A2", "https://a.com", ""⟩], 0, "g1", false⟩],
        some ⟨"c2", "t2"⟩, none, none, none⟩ "c1" "t1").1).collections =
      [⟨"c1", "Docs", [⟨"t1", "A", "https://a.com", ""⟩], 0, "g1", false⟩,
        ⟨"c2", "Fun", [⟨"t2", "A2", "https://a.com", ""⟩], 0, "g1", false⟩] ∧
    (onTabDrop (fun _ => "") "b1" true
      ⟨[⟨"c1", "Docs", [⟨"t1", "A", "https://a.com", ""⟩], 0, "g1", false⟩,
        ⟨"c2", "Fun", [⟨"t2", "A2", "https://a.com", ""⟩], 0, "g1", false⟩],
        some ⟨"c2", "t2"⟩, none, none, none⟩ "c1" "t1").2 = [] := by
  have h := claim1_duplicate_url_drop_noop (fun _ => "") "b1" true
  have ha := h.1
    ⟨[⟨"c1", "Docs", [⟨"t1", "A", "https://a.com", ""⟩], 0, "g1", false⟩],
      none, some ⟨some 1, some "https://a.com", some "A", none⟩, none, none⟩
    "c1" ⟨some 1, some "https://a.com", some "A", none⟩
    ⟨"c1", "Docs", [⟨"t1", "A", "https://a.com", ""⟩], 0, "g1", false⟩
    "https://a.com" (by decide) rfl rfl (by decide)
  have hb := h.2.1
    ⟨[⟨"c1", "Docs", [⟨"t1", "A", "https://a.com", ""⟩], 0, "g1", false⟩,
      ⟨"c2", "Fun", [⟨"t2", "A2", "https://a.com", ""⟩], 0, "g1", false⟩],
      some ⟨"c2", "t2"⟩, none, none, none⟩ "c1" ⟨"c2", "t2"⟩
    ⟨"c1", "Docs", [⟨"t1", "A", "https://a.com", ""⟩], 0, "g1", false⟩
    ⟨"c2", "Fun", [⟨"t2", "A2", "https://a.com", ""⟩], 0, "g1", false⟩
    0 ⟨"t2", "A2", "https://a.com", ""⟩
    (by decide) rfl rfl (by decide) (by decide) (by decide) (by decide)
  have hc := h.2.2.1
    ⟨[⟨"c1", "Docs", [⟨"t1", "A", "https://a.com", ""⟩], 0, "g1", false⟩],
      none, some ⟨some 1, some "https://a.com", some "A", none⟩, none, none⟩
    "c1" "t1" ⟨some 1, some "https://a.com", some "A", none⟩
    ⟨"c1", "Docs", [⟨"t1", "A", "https://a.com", ""⟩], 0, "g1", false⟩
    "https://a.com" (by decide) rfl rfl (by decide)
  have hd := h.2.2.2
    ⟨[⟨"c1", "Docs", [⟨"t1", "A", "https://a.com", ""⟩], 0, "g1", false⟩,
      ⟨"c2", "Fun", [⟨"t2", "A2", "https://a.com", ""⟩], 0, "g1", false⟩],
      some ⟨"c2", "t2"⟩, none, none, none⟩ "c1" "t1" ⟨"c2", "t2"⟩
    ⟨"c1", "Docs", [⟨"t1", "A", "https://a.com", ""⟩], 0, "g1", false⟩
    ⟨"c2", "Fun", [⟨"t2", "A2", "https://a.com", ""⟩], 0, "g1", false⟩
    0 ⟨"t2", "A2", "https://a.com", ""⟩
    (by decide) rfl rfl (by decide) (by decide) (by decide) (by decide) (by decide)
  exact ⟨ha.1, ha.2, hb.1, hc.1, hd.1, hd.2⟩

/-! ## C4 — collection order round-trip -/

theorem writeOrders_untouched (cols : List Collection) (i : Nat)
    (st : UIStatesMap) (id : String) (h : id ∉ cols.map (fun c => c.id)) :
    writeOrders cols i st id = st id := by
  induction cols generalizing i st with
  | nil => rfl
  | cons c rest ih =>
    simp only [List.map_cons, List.mem_cons, not_or] at h
    simp only [writeOrders]
    rw [ih _ _ h.2]
    unfold setUIState
    simp [h.1]

theorem writeOrders_get (cols : List Collection) (i : Nat) (st : UIStatesMap)
    (j : Nat) (hj : j < cols.length) (hnd : (cols.map (fun c => c.id)).Nodup) :
    writeOrders cols i st ((cols.get ⟨j, hj⟩).id) =
      some ⟨(cols.get ⟨j, hj⟩).expanded, i + j⟩ := by
  induction cols generalizing i st j with
  | nil => exact absurd hj (by simp)
  | cons c rest ih =>
    simp only [List.map_cons, List.nodup_cons] at hnd
    cases j with
    | zero =>
      simp only [List.get, writeOrders, Nat.add_zero]
      rw [writeOrders_untouched rest (i + 1) _ c.id hnd.1]
      unfold setUIState
      simp
    | succ j' =>
      simp only [List.get, writeOrders]
      rw [ih (i + 1) _ j' (by simpa using hj) hnd.2]
      congr 2
      omega

theorem orderLe_trans (states : UIStatesMap) (a b c : Collection) :
    orderLe states a b = true → orderLe states b c = true →
    orderLe states a c = true := by
  unfold orderLe
  cases orderKey states a <;> cases orderKey states b <;>
    cases orderKey states c
  all_goals (try simp)
  all_goals omega

theorem orderLe_total (states : UIStatesMap) (a b : Collection) :
    (orderLe states a b || orderLe states b a) = true := by
  unfold orderLe
  cases orderKey states a <;> cases orderKey states b
  all_goals (try simp)
  all_goals omega

/-- C4: (i) a drag reorder persists each collection's index in the
reordered list as its order value, keyed by collection id; (ii) the
startup reconciliation — apply the saved UI states, then sort by the saved
order values — restores the reordered list from any load order; (iii) in
the two-collection scenario, dragging C2 onto C1 yields `[C2, C1]` locally
and persisted order values `C2 ↦ 0`, `C1 ↦ 1`. -/
theorem claim4_collection_order_roundtrip (l loaded : List Collection)
    (states0 st2 : UIStatesMap) (c1 c2 : Collection)
    (hnd : (l.map (fun c => c.id)).Nodup) (hperm : loaded.Perm l)
    (hne : c1.id ≠ c2.id) :
    (∀ (j : Nat) (hj : j < l.length),
      saveCollectionOrder l states0 ((l.get ⟨j, hj⟩).id) =
        some ⟨(l.get ⟨j, hj⟩).expanded, j⟩) ∧
    startupSortCollections (saveCollectionOrder l states0) loaded = l ∧
    onCollectionDrop [c1, c2] (some c2.id) c1.id st2 =
      ([c2, c1], saveCollectionOrder [c2, c1] st2, none) ∧
    saveCollectionOrder [c2, c1] st2 c2.id = some ⟨c2.expanded, 0⟩ ∧
    saveCollectionOrder [c2, c1] st2 c1.id = some ⟨c1.expanded, 1⟩ := by
  have hwrite : ∀ (j : Nat) (hj : j < l.length),
      saveCollectionOrder l states0 ((l.get ⟨j, hj⟩).id) =
        some ⟨(l.get ⟨j, hj⟩).expanded, j⟩ := by
    intro j hj
    have := writeOrders_get l 0 states0 j hj hnd
    simpa [saveCollectionOrder] using this
  refine ⟨hwrite, ?_, ?_, ?_, ?_⟩
  · -- the startup sort restores the drag order
    set states' := saveCollectionOrder l states0 with hstates
    have hmem : ∀ c ∈ l, ∃ (j : Nat) (hj : j < l.length),
        l.get ⟨j, hj⟩ = c ∧ states' c.id = some ⟨c.expanded, j⟩ := by
      intro c hc
      obtain ⟨⟨j, hj⟩, hget⟩ := List.mem_iff_get.mp hc
      exact ⟨j, hj, hget, by rw [← hget]; exact hwrite j hj⟩
    have hkey : ∀ c ∈ l, ∃ (j : Nat) (hj : j < l.length),
        l.get ⟨j, hj⟩ = c ∧ orderKey states' c = some j := by
      intro c hc
      obtain ⟨j, hj, hget, hst⟩ := hmem c hc
      exact ⟨j, hj, hget, by unfold orderKey; rw [hst]; rfl⟩
    -- applying the saved UI states to the loaded list is the identity
    have happly : applyUIStates states' loaded = loaded := by
      unfold applyUIStates
      have hid : ∀ c ∈ loaded,
          ({ c with expanded :=
              ((states' c.id).map (fun st => st.expanded)).getD false }
            : Collection) = c := by
        intro c hc
        obtain ⟨j, hj, hget, hst⟩ := hmem c (hperm.subset hc)
        rw [hst]
        rfl
      calc loaded.map _ = loaded.map id := List.map_congr_left hid
        _ = loaded := List.map_id loaded
    unfold startupSortCollections
    rw [happly]
    -- the strict key order
    have hnodupl : l.Nodup := List.Nodup.of_map _ hnd
    set r : Collection → Collection → Prop := fun a b =>
      ∃ x y, orderKey states' a = some x ∧ orderKey states' b = some y ∧ x < y
      with hr
    have hanti : IsAntisymm Collection r := by
      constructor
      rintro a b ⟨x, y, hx, hy, hxy⟩ ⟨x', y', hx', hy', hxy'⟩
      rw [hx] at hy'
      rw [hy] at hx'
      have e1 : x = y' := Option.some.inj hy'
      have e2 : y = x' := Option.some.inj hx'
      exact absurd hxy (by omega)
    have hsortedl : List.Sorted r l := by
      rw [List.Sorted, List.pairwise_iff_getElem]
      intro i j hi hj hij
      have hki : orderKey states' l[i] = some i := by
        have h0 := hwrite i hi
        rw [List.get_eq_getElem] at h0
        unfold orderKey
        rw [h0]
        rfl
      have hkj : orderKey states' l[j] = some j := by
        have h0 := hwrite j hj
        rw [List.get_eq_getElem] at h0
        unfold orderKey
        rw [h0]
        rfl
      exact ⟨i, j, hki, hkj, hij⟩
    have hp1 : (loaded.mergeSort (orderLe states')).Perm loaded :=
      List.mergeSort_perm loaded _
    have hpl : (loaded.mergeSort (orderLe states')).Perm l := hp1.trans hperm
    have hnodupr : (loaded.mergeSort (orderLe states')).Nodup :=
      hpl.symm.nodup hnodupl
    have hsorted_le : List.Pairwise (fun a b => orderLe states' a b = true)
        (loaded.mergeSort (orderLe states')) :=
      List.sorted_mergeSort (orderLe_trans states') (orderLe_total states')
        loaded
    have hnodup_pw : List.Pairwise (fun a b : Collection => a ≠ b)
        (loaded.mergeSort (orderLe states')) := hnodupr
    have hsorted_r : List.Sorted r (loaded.mergeSort (orderLe states')) := by
      have hand := hsorted_le.and hnodup_pw
      refine List.Pairwise.imp_of_mem ?_ hand
      intro a b ha hb hab
      obtain ⟨hle, hne'⟩ := hab
      obtain ⟨ja, hja, hgeta, hka⟩ := hkey a (hpl.subset ha)
      obtain ⟨jb, hjb, hgetb, hkb⟩ := hkey b (hpl.subset hb)
      have hlejab : ja ≤ jb := by
        unfold orderLe at hle
        rw [hka, hkb] at hle
        simpa using hle
      have hjabne : ja ≠ jb := by
        intro he
        apply hne'
        subst he
        rw [← hgeta, ← hgetb]
      exact ⟨ja, jb, hka, hkb, lt_of_le_of_ne hlejab hjabne⟩
    exact List.eq_of_perm_of_sorted hpl hsorted_r hsortedl
  · -- scenario: the drop itself
    have hne2 : c2.id ≠ c1.id := Ne.symm hne
    unfold onCollectionDrop
    simp [List.findIdx?_cons, hne, hne2]
  · -- scenario: persisted order of C2
    have hne2 : c2.id ≠ c1.id := Ne.symm hne
    simp [saveCollectionOrder, writeOrders, setUIState, hne2]
  · -- scenario: persisted order of C1
    simp [saveCollectionOrder, writeOrders, setUIState]

/-- C4 (witness): two concrete collections, dragged into the order
`[cB, cA]`, reloaded from the reverse order. -/
theorem claim4_collection_order_roundtrip_witness :
    startupSortCollections
      (saveCollectionOrder [⟨"cA", "A", [], 0, "g", false⟩,
        ⟨"cB", "B", [], 0, "g", true⟩] (fun _ => none))
      [⟨"cB", "B", [], 0, "g", true⟩, ⟨"cA", "A", [], 0, "g", false⟩] =
      [⟨"cA", "A", [], 0, "g", false⟩, ⟨"cB", "B", [], 0, "g", true⟩] ∧
    onCollectionDrop [⟨"cA", "A", [], 0, "g", false⟩,
        ⟨"cB", "B", [], 0, "g", true⟩] (some "cB") "cA" (fun _ => none) =
      ([⟨"cB", "B", [], 0, "g", true⟩, ⟨"cA", "A", [], 0, "g", false⟩],
        saveCollectionOrder [⟨"cB", "B", [], 0, "g", true⟩,
          ⟨"cA", "A", [], 0, "g", false⟩] (fun _ => none), none) ∧
    saveCollectionOrder [⟨"cB", "B", [], 0, "g", true⟩,
      ⟨"cA", "A", [], 0, "g", false⟩] (fun _ => none) "cB" = some ⟨true, 0⟩ ∧
    saveCollectionOrder [⟨"cB", "B", [], 0, "g", true⟩,
      ⟨"cA", "A", [], 0, "g", false⟩] (fun _ => none) "cA" = some ⟨false, 1⟩ := by
  have h := claim4_collection_order_roundtrip
    [⟨"cA", "A", [], 0, "g", false⟩, ⟨"cB", "B", [], 0, "g", true⟩]
    [⟨"cB", "B", [], 0, "g", true⟩, ⟨"cA", "A", [], 0, "g", false⟩]
    (fun _ => none) (fun _ => none)
    ⟨"cA", "A", [], 0, "g", false⟩ ⟨"cB", "B", [], 0, "g", true⟩
    (by decide)
    (List.Perm.swap (⟨"cA", "A", [], 0, "g", false⟩ : Collection)
      (⟨"cB", "B", [], 0, "g", true⟩ : Collection) [])
    (by decide)
  exact ⟨h.2.1, h.2.2.1, h.2.2.2.1, h.2.2.2.2⟩

end TabManager
